import Mathlib

/-!
Shallow embedding of the core of the `whatsapp-api` gateway (Express +
whatsapp-web.js), together with theorems settling the frozen claims about it.

Strings from the JavaScript source are modelled as `List Char` where character
level reasoning is needed and as `String` elsewhere.  JavaScript truthiness is
made explicit wherever a branch of the source depends on it.
-/

namespace WhatsappApi

/-! ## JID normaliser — `src/src/utils/jid.js` -/

/-- JS `value.replace(/[^0-9]/g, '')` (jid.js line 1): keep ASCII digits only. -/
def normalizeDigits (value : List Char) : List Char :=
  value.filter fun c => c.isDigit

/-- JS `value.replace(/^\+/, '')` applied in `normalizeJid` (jid.js line 38):
drop a single leading plus sign. -/
def stripLeadingPlus (value : List Char) : List Char :=
  match value with
  | '+' :: rest => rest
  | _ => value

/-- JS `String.prototype.trim`: drop leading and trailing whitespace. -/
def jsTrim (value : List Char) : List Char :=
  ((value.dropWhile Char.isWhitespace).reverse.dropWhile Char.isWhitespace).reverse

/-- JS `String.prototype.trim` packaged back into a `String` (used by the
reply extraction, where the spec speaks of "trimmed" values). -/
def jsTrimStr (s : String) : String := ⟨jsTrim s.data⟩

/-- `ensureCountryCode` (jid.js lines 3-17): keep a leading `62`, turn a leading
`0` into `62`, put `62` in front of a leading `8`, and otherwise throw
`Unsupported phone number format`. -/
def ensureCountryCode (value : List Char) : Except String (List Char) :=
  if "62".data <+: value then .ok value
  else if "0".data <+: value then .ok ("62".data ++ value.drop 1)
  else if "8".data <+: value then .ok ("62".data ++ value)
  else .error "Unsupported phone number format"

/-- `normalizeJid` (jid.js lines 19-41).  Empty input throws `Empty JID`;
values ending in `@g.us` or `@c.us`, or containing `@`, pass through; anything
else is stripped to digits, given the `62` country code and suffixed with
`@c.us`. -/
def normalizeJid (input : List Char) : Except String (List Char) :=
  if input = [] then .error "Empty JID"
  else
    let value := jsTrim input
    if "@g.us".data <:+ value then .ok value
    else if "@c.us".data <:+ value then .ok value
    else if '@' ∈ value then .ok value
    else
      let digits := normalizeDigits (stripLeadingPlus value)
      match ensureCountryCode digits with
      | .ok normalized => .ok (normalized ++ "@c.us".data)
      | .error e => .error e

/-! ## Error taxonomy — `src/src/utils/errorMapping.js` -/

/-- A JavaScript `Error` as the error mapper sees it: an optional `code`
property, the `message` string (the empty string is falsy in
`error.message || …`), and whether the value is an `instanceof
RateLimitError`. -/
structure JsError where
  code : Option String
  message : String
  isRateLimitInstance : Bool
deriving DecidableEq, Repr

/-- HTTP mapping produced by `mapError`. -/
structure MappedError where
  status : Nat
  code : String
  message : String
deriving DecidableEq, Repr

/-- JS `a || b` on strings: the empty string falls through to the fallback. -/
def jsStrOr (s fallback : String) : String :=
  if s = "" then fallback else s

/-- `AI_TIMEOUT_CODE` from the AI proxy module. -/
def AI_TIMEOUT_CODE : String := "AI_TIMEOUT"

/-- `AI_DOWNSTREAM_CODE` from the AI proxy module. -/
def AI_DOWNSTREAM_CODE : String := "AI_DOWNSTREAM_ERROR"

/-- `mapError` (errorMapping.js lines 4-31).  `none` models a falsy `error`
argument; the `switch` on `error.code` is an equality chain ending in a
default of 500 `BAD_GATEWAY`. -/
def mapError (error : Option JsError) : MappedError :=
  match error with
  | none => ⟨500, "BAD_GATEWAY", "Unexpected server error"⟩
  | some e =>
    if e.isRateLimitInstance then ⟨429, "RATE_LIMITED", "Rate limit exceeded"⟩
    else if e.code = some "INVALID_PAYLOAD" then ⟨400, "INVALID_PAYLOAD", e.message⟩
    else if e.code = some "SESSION_NOT_FOUND" then
      ⟨404, "SESSION_NOT_FOUND", jsStrOr e.message "Session not found"⟩
    else if e.code = some "SESSION_NOT_READY" then ⟨409, "SESSION_NOT_READY", "Session is not ready"⟩
    else if e.code = some "MEDIA_TOO_LARGE" then ⟨413, "MEDIA_TOO_LARGE", e.message⟩
    else if e.code = some AI_TIMEOUT_CODE then ⟨504, AI_TIMEOUT_CODE, "AI backend timed out"⟩
    else if e.code = some AI_DOWNSTREAM_CODE then ⟨502, AI_DOWNSTREAM_CODE, "AI downstream error"⟩
    else if e.code = some "BAD_GATEWAY" then ⟨502, "BAD_GATEWAY", e.message⟩
    else ⟨500, "BAD_GATEWAY", jsStrOr e.message "Internal server error"⟩

/-- The error codes named by a `case` of the `switch` in `mapError`. -/
def recognizedCodes : List String :=
  ["INVALID_PAYLOAD", "SESSION_NOT_FOUND", "SESSION_NOT_READY", "MEDIA_TOO_LARGE",
   "AI_TIMEOUT", "AI_DOWNSTREAM_ERROR", "BAD_GATEWAY"]

/-- Inputs `sendText` (whatsappClientManager.js lines 132-155) depends on
before reaching the recipient normalisation: whether `getAgent` found a row,
whether the live session `isReady`, and the result of the rate-limited send
itself. -/
structure SendTextDeps where
  agentExists : Bool
  sessionReady : Bool
  enqueueResult : Except JsError Unit

/-- Error surface of `sendText`: missing row throws `SESSION_NOT_FOUND`; a
session that is not ready throws `SESSION_NOT_READY`; then the recipient goes
through `normalizeJid`, whose failures are plain `Error`s carrying no `code`
property; finally the enqueued send itself may fail. -/
def sendTextOutcome (deps : SendTextDeps) (recipient : List Char) : Except JsError Unit :=
  if deps.agentExists = false then .error ⟨some "SESSION_NOT_FOUND", "Session not found", false⟩
  else if deps.sessionReady = false then .error ⟨some "SESSION_NOT_READY", "Session not ready", false⟩
  else
    match normalizeJid recipient with
    | .error msg => .error ⟨none, msg, false⟩
    | .ok _ => deps.enqueueResult

/-! ## AI proxy reply extraction — `aiProxy.js` (`extractReply`) -/

/-- JSON-like values as the AI backend may return them in `response.data`. -/
inductive Json where
  | null
  | str (s : String)
  | num (q : ℚ)
  | bool (b : Bool)
  | arr (elems : List Json)
  | obj (fields : List (String × Json))

/-- JS property access `j[key]`: defined only on objects, `undefined`
(modelled `none`) on every other value. -/
def Json.get (j : Json) (key : String) : Option Json :=
  match j with
  | .obj fields => fields.lookup key
  | _ => none

/-- JS optional chain `j[k1]?.[k2]`: `undefined` when `j[k1]` is absent, and
ordinary property access on the intermediate value otherwise (`Json.get`
already yields `undefined` on `null` and primitives). -/
def Json.optChainGet (j : Json) (k1 k2 : String) : Option Json :=
  match j.get k1 with
  | none => none
  | some v => v.get k2

/-- JS falsiness of a value: `null`/`undefined`, the empty string, `0` and
`false` are falsy; arrays and objects are always truthy. -/
def jsFalsy : Json → Bool
  | .null => true
  | .str s => s == ""
  | .num q => q == 0
  | .bool b => !b
  | .arr _ => false
  | .obj _ => false

/-- The `for (const candidate of candidates)` loop of `extractReply`: return
the trimmed value of the first candidate that is a string with non-empty
trim, else fall through to `null`. -/
def firstQualifying : List (Option Json) → Option String
  | [] => none
  | c :: rest =>
    match c with
    | some (.str s) => if jsTrimStr s = "" then firstQualifying rest else some (jsTrimStr s)
    | _ => firstQualifying rest

/-- `extractReply` (aiProxy.js): `null` on a falsy body, otherwise the probe
loop over `data.reply`, `data.response`, `data.result?.reply`,
`data.result?.response`, `data.output` in that order. -/
def extractReply (data : Option Json) : Option String :=
  match data with
  | none => none
  | some d =>
    if jsFalsy d then none
    else firstQualifying
      [d.get "reply", d.get "response", d.optChainGet "result" "reply",
       d.optChainGet "result" "response", d.get "output"]

/-- The probe list in the spec's order. -/
def probeList (d : Json) : List (Option Json) :=
  [d.get "reply", d.get "response", d.optChainGet "result" "reply",
   d.optChainGet "result" "response", d.get "output"]

/-- Modelled from the spec wording: a candidate qualifies when it is a string
and non-empty after trimming, in which case the trimmed value is taken. -/
def trimmedCandidate : Option Json → Option String
  | some (.str s) => if jsTrimStr s = "" then none else some (jsTrimStr s)
  | _ => none

/-- Reply extraction as the spec describes it: the ordered probes, keeping the
first qualifying candidate's trimmed value; `null` when the body is absent. -/
def extractReplySpec (data : Option Json) : Option String :=
  match data with
  | none => none
  | some d => ((probeList d).filterMap trimmedCandidate).head?

/-! ## Rate-limit scheduler — `src/src/services/rateLimiter.js` -/

/-- The constructor configuration `{tokensPerMinute, burst, queueLimit}`. -/
structure RateLimiterConfig where
  tokensPerMinute : ℚ
  burst : ℚ
  queueLimit : ℕ
deriving DecidableEq, Repr

/-- The values `index.js` passes to `new RateLimiter({...})`, which also match
the constructor defaults. -/
def defaultConfig : RateLimiterConfig := ⟨100, 100, 500⟩

/-- Per-agent state `{tokens, lastRefill, queue, processing}`; JS numbers are
modelled as rationals and timestamps as rational milliseconds. -/
structure AgentState (J : Type) where
  tokens : ℚ
  lastRefill : ℚ
  queue : List J
  processing : Bool
deriving DecidableEq, Repr

/-- The state `getAgentState` installs on first sight of an agent. -/
def freshAgentState (cfg : RateLimiterConfig) (now : ℚ) (J : Type) : AgentState J :=
  ⟨cfg.burst, now, [], false⟩

/-- Rate-limit failure raised by `enqueue` (class `RateLimitError`). -/
inductive RateLimitErr where
  | rateLimited
deriving DecidableEq, Repr

/-- One agent's part of the `refillTokens` interval callback: compute elapsed
minutes since `lastRefill`, and when the accrued refill reaches 1 token, add
it clamped to `burst` and reset `lastRefill`. -/
def refillTokens (cfg : RateLimiterConfig) (now : ℚ) (s : AgentState J) : AgentState J :=
  let elapsed := (now - s.lastRefill) / 60000
  let refill := elapsed * cfg.tokensPerMinute
  if 1 ≤ refill then
    { s with tokens := min cfg.burst (s.tokens + refill), lastRefill := now }
  else s

/-- The synchronous head of `enqueue`: reject with `RateLimitError` when the
queue already holds `queueLimit` entries, otherwise push the job. -/
def enqueuePush (cfg : RateLimiterConfig) (s : AgentState J) (job : J) :
    Except RateLimitErr (AgentState J) :=
  if cfg.queueLimit ≤ s.queue.length then .error .rateLimited
  else .ok { s with queue := s.queue ++ [job] }

/-- Result of one iteration of the `work` loop in `processQueue`: either the
loop stops (clearing `processing`), or it spends a token, shifts the head job
off the queue and starts awaiting it. -/
inductive ProcessStep (J : Type) where
  | stop (s : AgentState J)
  | run (job : J) (s : AgentState J)
deriving DecidableEq, Repr

/-- One iteration of `work`: stop when the queue is empty or `tokens < 1`,
otherwise decrement one token and shift the first job. -/
def processWorkStep (s : AgentState J) : ProcessStep J :=
  match s.queue with
  | [] => .stop { s with processing := false }
  | job :: rest =>
    if s.tokens < 1 then .stop { s with processing := false }
    else .run job { s with tokens := s.tokens - 1, queue := rest }

/-- The state-level effect of `enqueue` with a task whose inner promise never
settles: push the job; then `processQueue` returns at once when `processing`
is already set, and otherwise sets `processing`, runs one `work` iteration and
— because the awaited task never resolves — makes no further progress. -/
def enqueueBlocking (cfg : RateLimiterConfig) (s : AgentState J) (job : J) :
    Except RateLimitErr (AgentState J) :=
  match enqueuePush cfg s job with
  | .error e => .error e
  | .ok s1 =>
    if s1.processing then .ok s1
    else
      match processWorkStep { s1 with processing := true } with
      | .stop s2 => .ok s2
      | .run _ s2 => .ok s2

/-- State after `n` such blocked enqueues (jobs numbered from 0) starting from
a fresh agent state at clock 0. -/
def blockedAfter (cfg : RateLimiterConfig) : ℕ → Except RateLimitErr (AgentState ℕ)
  | 0 => .ok (freshAgentState cfg 0 ℕ)
  | n + 1 => (blockedAfter cfg n).bind fun s => enqueueBlocking cfg s n

/-- The token-bucket invariant of the claim: tokens stay within `[0, burst]`. -/
def TokenInv (cfg : RateLimiterConfig) (s : AgentState J) : Prop :=
  0 ≤ s.tokens ∧ s.tokens ≤ cfg.burst

/-! ## Media preparation — `whatsappClientManager.prepareMedia` -/

/-- Value of a character in the standard base64 alphabet. -/
def base64Val (c : Char) : Option ℕ :=
  if 'A' ≤ c ∧ c ≤ 'Z' then some (c.toNat - 65)
  else if 'a' ≤ c ∧ c ≤ 'z' then some (c.toNat - 97 + 26)
  else if '0' ≤ c ∧ c ≤ '9' then some (c.toNat - 48 + 52)
  else if c = '+' then some 62
  else if c = '/' then some 63
  else none

/-- Reassemble bytes from 6-bit base64 values, four values to three bytes,
with the usual truncation for a trailing pair or triple. -/
def base64Quads : List ℕ → List ℕ
  | a :: b :: c :: d :: rest =>
    (a * 4 + b / 16) :: ((b % 16) * 16 + c / 4) :: ((c % 4) * 64 + d) :: base64Quads rest
  | [a, b] => [a * 4 + b / 16]
  | [a, b, c] => [a * 4 + b / 16, (b % 16) * 16 + c / 4]
  | _ => []

/-- Bytes of `Buffer.from(s, 'base64')`: characters outside the alphabet
(including `=` padding) are skipped, then 6-bit groups are packed. -/
def base64Decode (s : String) : List ℕ :=
  base64Quads (s.data.filterMap base64Val)

/-- JS `data.split(',').pop()`: the segment after the last comma. -/
def afterLastComma (s : String) : String :=
  ⟨(s.data.reverse.takeWhile (· != ',')).reverse⟩

/-- Locate the first `://` and return what follows it, or `none` when the
separator is absent. -/
def afterSchemeSep : List Char → Option (List Char)
  | ':' :: '/' :: '/' :: rest => some rest
  | _ :: rest => afterSchemeSep rest
  | [] => none

/-- Modelled behaviour of WHATWG `new URL(url).pathname` for the absolute
`scheme://authority/path` URLs the media endpoint receives: the constructor
throws (`none`) without a scheme separator; otherwise the pathname runs from
the first `/` after the authority up to `?` or `#`, defaulting to `/`. -/
def urlPathname (url : String) : Option (List Char) :=
  match afterSchemeSep url.data with
  | none => none
  | some rest =>
    let afterAuthority := rest.dropWhile fun c => c != '/' && c != '?' && c != '#'
    let path := afterAuthority.takeWhile fun c => c != '?' && c != '#'
    some (if path = [] then ['/'] else path)

/-- Node `path.basename`: the component after the last `/`. -/
def pathBasename (p : List Char) : String :=
  ⟨(p.reverse.takeWhile (· != '/')).reverse⟩

/-- JS truthiness of an optional string argument: absent (`undefined`) and the
empty string are falsy. -/
def jsStrTruthy : Option String → Bool
  | none => false
  | some s => s != ""

/-- The argument object of `prepareMedia`; `none` models an omitted property
(so the JS default parameters `filename = 'image.jpg'`,
`mimeType = 'image/jpeg'` apply), and `some ""` an explicitly empty one.
`saveToTemp` is the already-coerced value of `save_to_temp !== false`. -/
structure MediaPayload where
  data : Option String
  url : Option String
  filename : Option String
  mimeType : Option String
  saveToTemp : Bool
deriving DecidableEq, Repr

/-- Environment for the two axios calls of the url branch:
`headContentLength = none` models a rejected HEAD request; otherwise the inner
option is `Number(head.headers['content-length'])` with `none` for NaN (absent
or unparsable header).  `body`/`contentType` describe the GET response. -/
structure RemoteFetch where
  headContentLength : Option (Option ℚ)
  body : List ℕ
  contentType : Option String
deriving DecidableEq, Repr

/-- The produced media handle: `new MessageMedia(mimeType, base64, filename)`
carries the buffer as base64; we carry the bytes themselves, plus whether the
temp preview file was written. -/
structure MediaHandle where
  mimeType : String
  dataBytes : List ℕ
  filename : String
  previewWritten : Bool
deriving DecidableEq, Repr

/-- `MAX_MEDIA_BYTES = 10 * 1024 * 1024` (whatsappClientManager.js line 16). -/
def MAX_MEDIA_BYTES : ℕ := 10 * 1024 * 1024

/-- JS `data.includes(',') ? data.split(',').pop() : data`: a data URL keeps
only what follows the last comma. -/
def dataUrlPayload (dataStr : String) : String :=
  if dataStr.data.contains ',' then afterLastComma dataStr else dataStr

/-- JS `response.headers['content-type'] || mimeType`: adopt the GET
content type when present and truthy. -/
def remoteMime (remote : RemoteFetch) (fallback : String) : String :=
  match remote.contentType with
  | some ct => jsStrOr ct fallback
  | none => fallback

/-- The url branch's filename logic: `if (!filename)` derive the basename of
`new URL(url).pathname`, defaulting to `image.jpg` when the URL constructor
throws; otherwise keep the effective filename. -/
def urlFilename (url fname : String) : String :=
  if fname = "" then
    match urlPathname url with
    | some pn => pathBasename pn
    | none => "image.jpg"
  else fname

/-- `prepareMedia` (whatsappClientManager.js lines 180-232).  `if (data)` wins
over `else if (url)`; the url branch HEAD-checks the size (`!size`, NaN or
`size > MAX` fail `MEDIA_TOO_LARGE`), adopts the GET `Content-Type` when
truthy, and derives a filename from the URL path only when the effective
`filename` is falsy — which the default parameter makes `"image.jpg"` when the
caller omitted it. -/
def prepareMedia (remote : RemoteFetch) (p : MediaPayload) : Except JsError MediaHandle :=
  if jsStrTruthy p.data then
    if MAX_MEDIA_BYTES < (base64Decode (dataUrlPayload (p.data.getD ""))).length then
      .error ⟨some "MEDIA_TOO_LARGE", "Media exceeds 10MB", false⟩
    else
      .ok ⟨p.mimeType.getD "image/jpeg", base64Decode (dataUrlPayload (p.data.getD "")),
           p.filename.getD "image.jpg", p.saveToTemp⟩
  else if jsStrTruthy p.url then
    match remote.headContentLength with
    | none => .error ⟨some "BAD_GATEWAY", "Failed to inspect remote media", false⟩
    | some none =>
      .error ⟨some "MEDIA_TOO_LARGE", "Remote media exceeds 10MB or size unknown", false⟩
    | some (some size) =>
      if size = 0 ∨ (MAX_MEDIA_BYTES : ℚ) < size then
        .error ⟨some "MEDIA_TOO_LARGE", "Remote media exceeds 10MB or size unknown", false⟩
      else
        .ok ⟨remoteMime remote (p.mimeType.getD "image/jpeg"), remote.body,
             urlFilename (p.url.getD "") (p.filename.getD "image.jpg"), p.saveToTemp⟩
  else .error ⟨some "INVALID_PAYLOAD", "Either data or url is required", false⟩

/-! ## Reconnect timer — `whatsappClientManager.scheduleSessionRestart` -/

/-- The persisted `whatsapp_user` row as the supervisor reads it (fields the
claims depend on). -/
structure AgentRecord where
  user_id : ℕ
  agent_id : String
  agent_name : String
  status : String
deriving DecidableEq, Repr

/-- The polymorphic first argument of `scheduleSessionRestart`: an
`AgentRecord` object or a bare agent-id string. -/
inductive RestartArg where
  | record (r : AgentRecord)
  | agentIdStr (s : String)
deriving DecidableEq, Repr

/-- JS truthiness of the polymorphic argument: objects are truthy, a string
is truthy unless empty. -/
def RestartArg.truthy : RestartArg → Bool
  | .record _ => true
  | .agentIdStr s => s != ""

/-- What the `setTimeout` body of `scheduleSessionRestart` did on one firing
(the non-throwing path): whether the timer was removed from
`reconnectTimers`, whether the `if (!freshRecord)` early return was taken,
whether `teardownClient` ran, and the value handed to `ensureClient`. -/
structure RestartFireOutcome where
  timerDeleted : Bool
  aborted : Bool
  toreDown : Bool
  ensuredWith : Option RestartArg
deriving DecidableEq, Repr

/-- The timer body (whatsappClientManager.js lines 556-576):
`reconnectTimers.delete(agentId)`, then
`const freshRecord = (await this.getAgent(agentId)) || agentRecord`; the
`if (!freshRecord)` guard aborts only when that whole expression is falsy;
otherwise `teardownClient` then `ensureClient(freshRecord)`. -/
def restartTimerFire (dbRecord : Option AgentRecord) (arg : RestartArg) : RestartFireOutcome :=
  let fresh : Option RestartArg :=
    match dbRecord with
    | some r => some (.record r)
    | none => if arg.truthy then some arg else none
  match fresh with
  | none => ⟨true, true, false, none⟩
  | some f => ⟨true, false, true, some f⟩

/-! ## Session event state machine — `whatsappClientManager.ensureClient` -/

/-- The per-session mutable fields the client event handlers touch. -/
structure SessionState where
  isReady : Bool
  status : String
  shuttingDown : Bool
  metricsCounted : Bool
  hasQr : Bool
deriving DecidableEq, Repr

/-- The session object `ensureClient` installs: not ready, status mirrored
from the agent record, not shutting down, no QR, gauge not counted. -/
def initialSession (recordStatus : String) : SessionState :=
  ⟨false, recordStatus, false, false, false⟩

/-- The four lifecycle events of the embedded client handled in
`ensureClient` (`message` is routed elsewhere; the `disconnected` reason only
feeds the restart's `clearAuth` flag, not these fields). -/
inductive ClientEvent where
  | qr
  | ready
  | authFailure
  | disconnected
deriving DecidableEq, Repr

/-- The event handlers' effect on the session fields
(whatsappClientManager.js lines 267-332): `qr` stores the payload and sets
`status = 'awaiting_qr'` without touching `isReady`; `ready` sets
`isReady`/`connected` and marks the gauge counted; `auth_failure` and
`disconnected` return early when `shuttingDown` and otherwise clear
`isReady` with their status. -/
def handleEvent (s : SessionState) (e : ClientEvent) : SessionState :=
  match e with
  | .qr => { s with hasQr := true, status := "awaiting_qr" }
  | .ready => { s with isReady := true, status := "connected", metricsCounted := true }
  | .authFailure =>
    if s.shuttingDown then s else { s with status := "auth_failed", isReady := false }
  | .disconnected =>
    if s.shuttingDown then s
    else { s with status := "disconnected", isReady := false, metricsCounted := false }

/-- A trace is `qr`-safe when every `qr` event fires while `isReady = false`
(the state after `ready` is only left through `auth_failure`/`disconnected`). -/
def qrSafe : SessionState → List ClientEvent → Prop
  | _, [] => True
  | s, e :: rest => (e = .qr → s.isReady = false) ∧ qrSafe (handleEvent s e) rest

/-! ## QR rendezvous — `waitForQr`, the `qr` handler and `teardownClient` -/

/-- One waiter object installed in `readyPromises` by `waitForQr`: its pending
timeout timer, whether its promise was resolved, and the error code it was
rejected with, if any. -/
structure WaiterObj where
  timerActive : Bool
  resolved : Bool
  rejectedCode : Option String
deriving DecidableEq, Repr

/-- The manager state relevant to the QR rendezvous for one agent: whether a
live session is in `sessions`, whether that session has a cached `qr`, every
waiter object ever created (callers keep holding their promises), and which
of them — if any — `readyPromises` currently maps the agent to. -/
structure QrState where
  sessionLive : Bool
  sessionQr : Bool
  waiters : List WaiterObj
  mapEntry : Option ℕ
deriving DecidableEq, Repr

/-- The manager before any call: no session, no waiters. -/
def qrInit : QrState := ⟨false, false, [], none⟩

/-- The events that touch this state: `ensureClient`, a `waitForQr` call, the
client `qr` event, a waiter's timeout firing, and `teardownClient`. -/
inductive QrSysEvent where
  | ensureClient
  | waitForQrCall
  | qrEvent
  | timeoutFire (i : ℕ)
  | teardown
deriving DecidableEq, Repr

/-- Replace the waiter at index `i`. -/
def setWaiter : List WaiterObj → ℕ → (WaiterObj → WaiterObj) → List WaiterObj
  | [], _, _ => []
  | w :: ws, 0, f => f w :: ws
  | w :: ws, i + 1, f => w :: setWaiter ws i f

/-- One step of the rendezvous system.
`ensureClient` installs a fresh session when none is live.
`waitForQrCall` (lines 505-547) throws on a missing session, returns a cached
QR, joins an existing `readyPromises` entry, or installs a new waiter with an
armed timeout.
`qrEvent` (lines 267-294) caches the payload on the live session and, when a
map entry is pending, deletes it and resolves that waiter (its `resolve`
wrapper clears the timeout).
`timeoutFire i` is waiter `i`'s timeout: it deletes whatever entry the map
holds and rejects waiter `i` with `SESSION_NOT_READY`; it can fire only while
that waiter's timer is armed.
`teardown` (lines 445-478) deletes the session and the map entry — and
nothing else: it neither resolves nor rejects, and does not clear the
waiter's timeout. -/
def qrStep (s : QrState) (e : QrSysEvent) : QrState :=
  match e with
  | .ensureClient =>
    if s.sessionLive then s else { s with sessionLive := true, sessionQr := false }
  | .waitForQrCall =>
    if s.sessionLive = false then s
    else if s.sessionQr then s
    else if s.mapEntry.isSome then s
    else { s with waiters := s.waiters ++ [⟨true, false, none⟩],
                  mapEntry := some s.waiters.length }
  | .qrEvent =>
    match s.mapEntry with
    | some i =>
      { s with sessionQr := if s.sessionLive then true else s.sessionQr,
               mapEntry := none,
               waiters := setWaiter s.waiters i
                 fun w => { w with resolved := true, timerActive := false } }
    | none => { s with sessionQr := if s.sessionLive then true else s.sessionQr }
  | .timeoutFire i =>
    match s.waiters.get? i with
    | some w =>
      if w.timerActive then
        { s with mapEntry := none,
                 waiters := setWaiter s.waiters i
                   fun w => { w with timerActive := false,
                                     rejectedCode := some "SESSION_NOT_READY" } }
      else s
    | none => s
  | .teardown => { s with sessionLive := false, sessionQr := false, mapEntry := none }

/-- Run a list of events from the initial manager state. -/
def qrRun (evs : List QrSysEvent) : QrState :=
  evs.foldl qrStep qrInit

/-- Exactly-once discipline for one waiter, with the auxiliary fact that an
armed timer means the waiter is still pending. -/
def WaiterOk (w : WaiterObj) : Prop :=
  ¬(w.resolved = true ∧ w.rejectedCode.isSome = true) ∧
  (w.timerActive = true → w.resolved = false ∧ w.rejectedCode = none)

/-- System invariant: every waiter obeys the exactly-once discipline, and a
live `readyPromises` entry points at a waiter whose timer is armed. -/
def QrInv (s : QrState) : Prop :=
  (∀ w ∈ s.waiters, WaiterOk w) ∧
  (∀ i, s.mapEntry = some i → ∃ w, s.waiters.get? i = some w ∧ w.timerActive = true)

/-! # Helper lemmas -/

theorem mem_of_mem_jsTrim {c : Char} {l : List Char} (h : c ∈ jsTrim l) : c ∈ l := by
  unfold jsTrim at h
  have h1 := List.mem_reverse.mp h
  have h2 := (List.dropWhile_sublist _).mem h1
  have h3 := List.mem_reverse.mp h2
  exact (List.dropWhile_sublist _).mem h3

theorem normalizeJid_digits_path (l : List Char) (hne : l ≠ []) (hat : '@' ∉ l) :
    normalizeJid l =
      match ensureCountryCode (normalizeDigits (stripLeadingPlus (jsTrim l))) with
      | .ok normalized => .ok (normalized ++ "@c.us".data)
      | .error e => .error e := by
  have hat' : '@' ∉ jsTrim l := fun h => hat (mem_of_mem_jsTrim h)
  have hg : ¬("@g.us".data <:+ jsTrim l) := by
    intro hsuf
    obtain ⟨t, ht⟩ := hsuf
    exact hat' (ht ▸ List.mem_append.mpr (Or.inr (by decide)))
  have hc : ¬("@c.us".data <:+ jsTrim l) := by
    intro hsuf
    obtain ⟨t, ht⟩ := hsuf
    exact hat' (ht ▸ List.mem_append.mpr (Or.inr (by decide)))
  simp only [normalizeJid]
  rw [if_neg hne, if_neg hg, if_neg hc, if_neg hat']

theorem firstQualifying_eq_spec (cs : List (Option Json)) :
    firstQualifying cs = (cs.filterMap trimmedCandidate).head? := by
  induction cs with
  | nil => rfl
  | cons c rest ih =>
    rcases c with _ | j
    · simpa [firstQualifying, trimmedCandidate] using ih
    · rcases j with _ | s | q | b | es | fs
      · simpa [firstQualifying, trimmedCandidate] using ih
      · by_cases hs : jsTrimStr s = ""
        · simpa [firstQualifying, trimmedCandidate, hs] using ih
        · simp [firstQualifying, trimmedCandidate, hs]
      · simpa [firstQualifying, trimmedCandidate] using ih
      · simpa [firstQualifying, trimmedCandidate] using ih
      · simpa [firstQualifying, trimmedCandidate] using ih
      · simpa [firstQualifying, trimmedCandidate] using ih

theorem probeList_of_falsy (d : Json) (h : jsFalsy d = true) :
    probeList d = [none, none, none, none, none] := by
  cases d <;> simp_all [jsFalsy, probeList, Json.get, Json.optChainGet]

/-! # Claim theorems -/

/-- C7: for every non-empty input without `@`, the normaliser strips a leading
`+` and all non-digits; then a value starting with `62` is kept, a leading `0`
is replaced by `62`, a leading `8` is prefixed with `62`, any other shape
fails with `Unsupported phone number format`, and `@c.us` is appended on
success.  Concretely "08123", "+628123" and "8123" all normalise to
"628123@c.us" while "7123" fails. -/
theorem C7_jid_normalisation :
    (∀ l : List Char, l ≠ [] → '@' ∉ l →
      ∀ d, d = normalizeDigits (stripLeadingPlus (jsTrim l)) →
        ("62".data <+: d → normalizeJid l = .ok (d ++ "@c.us".data)) ∧
        (¬("62".data <+: d) → "0".data <+: d →
          normalizeJid l = .ok ("62".data ++ d.drop 1 ++ "@c.us".data)) ∧
        (¬("62".data <+: d) → ¬("0".data <+: d) → "8".data <+: d →
          normalizeJid l = .ok ("62".data ++ d ++ "@c.us".data)) ∧
        (¬("62".data <+: d) → ¬("0".data <+: d) → ¬("8".data <+: d) →
          normalizeJid l = .error "Unsupported phone number format")) ∧
    normalizeJid "08123".data = .ok "628123@c.us".data ∧
    normalizeJid "+628123".data = .ok "628123@c.us".data ∧
    normalizeJid "8123".data = .ok "628123@c.us".data ∧
    normalizeJid "7123".data = .error "Unsupported phone number format" := by
  refine ⟨?_, rfl, rfl, rfl, rfl⟩
  intro l hne hat d hd
  subst hd
  rw [normalizeJid_digits_path l hne hat]
  refine ⟨fun h62 => ?_, fun h62 h0 => ?_, fun h62 h0 h8 => ?_, fun h62 h0 h8 => ?_⟩
  · simp [ensureCountryCode, if_pos h62]
  · simp [ensureCountryCode, if_neg h62, if_pos h0]
  · simp [ensureCountryCode, if_neg h62, if_neg h0, if_pos h8]
  · simp [ensureCountryCode, if_neg h62, if_neg h0, if_neg h8]

/-- Witness for `C7_jid_normalisation` at the input "08123". -/
theorem C7_jid_normalisation_witness :
    normalizeJid "08123".data = .ok "628123@c.us".data := by
  have h := (C7_jid_normalisation.1 "08123".data (by decide) (by decide)
      (normalizeDigits (stripLeadingPlus (jsTrim "08123".data))) rfl).2.1
      (by decide) (by decide)
  exact h.trans rfl

/-- C9: every error whose code is none of the recognised ones and that is not
a RateLimitError instance maps to HTTP 500 with code BAD_GATEWAY; in
particular a send_text whose recipient fails JID normalisation throws a plain
code-less Error and surfaces as 500 BAD_GATEWAY, not INVALID_PAYLOAD. -/
theorem C9_default_error_mapping :
    (∀ e : JsError, e.isRateLimitInstance = false →
      (∀ c ∈ recognizedCodes, e.code ≠ some c) →
      mapError (some e) = ⟨500, "BAD_GATEWAY", jsStrOr e.message "Internal server error"⟩) ∧
    (∀ deps : SendTextDeps, deps.agentExists = true → deps.sessionReady = true →
      sendTextOutcome deps "7123".data =
        .error ⟨none, "Unsupported phone number format", false⟩) ∧
    mapError (some ⟨none, "Unsupported phone number format", false⟩) =
      ⟨500, "BAD_GATEWAY", "Unsupported phone number format"⟩ := by
  refine ⟨?_, ?_, by decide⟩
  · intro e hrl hcodes
    have h1 : e.code ≠ some "INVALID_PAYLOAD" := hcodes _ (by decide)
    have h2 : e.code ≠ some "SESSION_NOT_FOUND" := hcodes _ (by decide)
    have h3 : e.code ≠ some "SESSION_NOT_READY" := hcodes _ (by decide)
    have h4 : e.code ≠ some "MEDIA_TOO_LARGE" := hcodes _ (by decide)
    have h5 : e.code ≠ some "AI_TIMEOUT" := hcodes _ (by decide)
    have h6 : e.code ≠ some "AI_DOWNSTREAM_ERROR" := hcodes _ (by decide)
    have h7 : e.code ≠ some "BAD_GATEWAY" := hcodes _ (by decide)
    simp [mapError, AI_TIMEOUT_CODE, AI_DOWNSTREAM_CODE, hrl, h1, h2, h3, h4, h5, h6, h7]
  · intro deps h1 h2
    have hjid : normalizeJid "7123".data = .error "Unsupported phone number format" := rfl
    simp [sendTextOutcome, h1, h2, hjid]

/-- Witness for `C9_default_error_mapping`: an unrecognised code maps to
500 BAD_GATEWAY, and the concrete send_text path fails as stated. -/
theorem C9_default_error_mapping_witness :
    mapError (some ⟨some "UNAUTHORIZED", "boom", false⟩) = ⟨500, "BAD_GATEWAY", "boom"⟩ ∧
    sendTextOutcome ⟨true, true, .ok ()⟩ "7123".data =
      .error ⟨none, "Unsupported phone number format", false⟩ := by
  constructor
  · exact (C9_default_error_mapping.1 ⟨some "UNAUTHORIZED", "boom", false⟩ rfl
      (by decide)).trans (by decide)
  · exact C9_default_error_mapping.2.1 ⟨true, true, .ok ()⟩ rfl rfl

/-- C6: reply extraction probes `data.reply`, `data.response`,
`data.result.reply`, `data.result.response`, `data.output` in that order and
returns the trimmed value of the first candidate that is a string with a
non-empty trim; with no qualifying candidate (or an absent body) the reply is
null.  Stated as equality with the spec-shaped extraction on every input,
plus concrete probes. -/
theorem C6_reply_extraction :
    (∀ data : Option Json, extractReply data = extractReplySpec data) ∧
    extractReply (some (.obj [("response", .str " b "), ("reply", .str " a ")])) = some "a" ∧
    extractReply (some (.obj [("reply", .str "  "), ("result", .obj [("response", .str "ok")])]))
      = some "ok" ∧
    extractReply (some (.obj [("reply", .num 3)])) = none ∧
    extractReply none = none := by
  refine ⟨?_, rfl, rfl, rfl, rfl⟩
  intro data
  cases data with
  | none => rfl
  | some d =>
    by_cases hf : jsFalsy d = true
    · have hp := probeList_of_falsy d hf
      have hp' : [d.get "reply", d.get "response", d.optChainGet "result" "reply",
          d.optChainGet "result" "response", d.get "output"] =
            [none, none, none, none, none] := hp
      simp [extractReply, extractReplySpec, hf, hp, hp', trimmedCandidate]
    · simp [extractReply, extractReplySpec, hf, firstQualifying_eq_spec, probeList]

/-- C1 counterexample: with the database row gone and a record argument, the
fired reconnect timer does not abort — `(await getAgent(agentId)) ||
agentRecord` falls back to the stale record, so it tears down and hands that
record to `ensureClient`. -/
theorem C1_counterexample :
    restartTimerFire none (.record ⟨1, "a1", "A", "disconnected"⟩) =
      ⟨true, false, true, some (.record ⟨1, "a1", "A", "disconnected"⟩)⟩ := by decide

/-- C1 (amended): when the timer fires the supervisor reloads the record and
proceeds with the fresh copy when the reload succeeds; when the reload finds
nothing it falls back to the argument captured at scheduling time and still
performs teardown and ensure_client with it; it aborts — no teardown, no new
client — only when that captured argument is itself falsy. -/
theorem C1_restart_reload_fallback :
    (∀ (db : AgentRecord) (arg : RestartArg),
      restartTimerFire (some db) arg = ⟨true, false, true, some (.record db)⟩) ∧
    (∀ arg : RestartArg, arg.truthy = true →
      restartTimerFire none arg = ⟨true, false, true, some arg⟩) ∧
    (∀ arg : RestartArg, arg.truthy = false →
      restartTimerFire none arg = ⟨true, true, false, none⟩) := by
  refine ⟨fun db arg => rfl, fun arg h => ?_, fun arg h => ?_⟩
  · simp [restartTimerFire, h]
  · simp [restartTimerFire, h]

/-- Witness for `C1_restart_reload_fallback` at a missing row and a concrete
record argument. -/
theorem C1_restart_reload_fallback_witness :
    restartTimerFire none (.record ⟨2, "a2", "B", "disconnected"⟩) =
      ⟨true, false, true, some (.record ⟨2, "a2", "B", "disconnected"⟩)⟩ :=
  C1_restart_reload_fallback.2.1 _ rfl

/-- C4 counterexample: after the handler sequence [ready, qr] the session has
`isReady = true` while `status = 'awaiting_qr'` — the qr handler sets the
status but never clears `isReady`, so the claimed invariant fails on this
reachable event sequence. -/
theorem C4_counterexample :
    ([ClientEvent.ready, .qr].foldl handleEvent (initialSession "awaiting_qr")).isReady = true ∧
    ([ClientEvent.ready, .qr].foldl handleEvent (initialSession "awaiting_qr")).status =
      "awaiting_qr" ∧
    ([ClientEvent.ready, .qr].foldl handleEvent (initialSession "awaiting_qr")).status ≠
      "connected" := by decide

/-- C4 (amended): `isReady = true → status = 'connected'` holds after every
finite event sequence in which each `qr` event fires while `isReady = false`;
the unrestricted claim fails because the qr handler assigns
`status = 'awaiting_qr'` without clearing `isReady`. -/
theorem C4_ready_implies_connected :
    (∀ (s : SessionState) (evs : List ClientEvent),
      (s.isReady = true → s.status = "connected") → qrSafe s evs →
      (evs.foldl handleEvent s).isReady = true →
        (evs.foldl handleEvent s).status = "connected") ∧
    (∀ (recordStatus : String) (evs : List ClientEvent),
      qrSafe (initialSession recordStatus) evs →
      (evs.foldl handleEvent (initialSession recordStatus)).isReady = true →
        (evs.foldl handleEvent (initialSession recordStatus)).status = "connected") := by
  have main : ∀ (evs : List ClientEvent) (s : SessionState),
      (s.isReady = true → s.status = "connected") → qrSafe s evs →
      (evs.foldl handleEvent s).isReady = true →
        (evs.foldl handleEvent s).status = "connected" := by
    intro evs
    induction evs with
    | nil => intro s hInv _ h; exact hInv h
    | cons e rest ih =>
      intro s hInv hsafe
      obtain ⟨hqr, hrest⟩ := hsafe
      refine ih (handleEvent s e) ?_ hrest
      cases e with
      | qr =>
        intro h
        exfalso
        have : (handleEvent s .qr).isReady = false := by
          simp [handleEvent, hqr rfl]
        simp [this] at h
      | ready => intro _; rfl
      | authFailure =>
        by_cases hsd : s.shuttingDown = true
        · simpa [handleEvent, hsd] using hInv
        · intro h
          simp [handleEvent, hsd] at h
      | disconnected =>
        by_cases hsd : s.shuttingDown = true
        · simpa [handleEvent, hsd] using hInv
        · intro h
          simp [handleEvent, hsd] at h
  constructor
  · intro s evs hInv hsafe
    exact main evs s hInv hsafe
  · intro recordStatus evs hsafe
    exact main evs (initialSession recordStatus) (fun h => by simp [initialSession] at h) hsafe

/-- Witness for `C4_ready_implies_connected` on the one-event trace [ready]
from a fresh session. -/
theorem C4_ready_implies_connected_witness :
    ([ClientEvent.ready].foldl handleEvent (initialSession "awaiting_qr")).status =
      "connected" := by
  have h := C4_ready_implies_connected.2 "awaiting_qr" [ClientEvent.ready]
    ⟨fun hh => (nomatch hh), trivial⟩
  exact h (by decide)

/-- C2 counterexample: a call supplying BOTH `data` and `url` does not fail
with INVALID_PAYLOAD — the data branch wins and the call succeeds. -/
theorem C2_counterexample :
    prepareMedia ⟨some (some 3), [1, 2, 3], none⟩
      ⟨some "aGk=", some "http://example.com/a.png", none, none, true⟩ =
      .ok ⟨"image/jpeg", [104, 105], "image.jpg", true⟩ := rfl

/-- C2 (amended): prepare_media fails with INVALID_PAYLOAD exactly when
neither `data` nor `url` is truthy; when both are supplied, `data` takes
precedence (the `if (data) … else if (url)` chain) and INVALID_PAYLOAD is not
raised. -/
theorem C2_media_source_validation :
    ∀ (remote : RemoteFetch) (p : MediaPayload),
      (∃ e, prepareMedia remote p = .error e ∧ e.code = some "INVALID_PAYLOAD") ↔
        (jsStrTruthy p.data = false ∧ jsStrTruthy p.url = false) := by
  intro remote p
  obtain ⟨hcl, body, ctype⟩ := remote
  constructor
  · rintro ⟨e, he, hc⟩
    by_cases hd : jsStrTruthy p.data = true
    · unfold prepareMedia at he
      rw [if_pos hd] at he
      by_cases hs : MAX_MEDIA_BYTES < (base64Decode (dataUrlPayload (p.data.getD ""))).length
      · rw [if_pos hs] at he
        cases he
        exact absurd hc (by decide)
      · rw [if_neg hs] at he
        cases he
    · by_cases hu : jsStrTruthy p.url = true
      · unfold prepareMedia at he
        rw [if_neg hd, if_pos hu] at he
        dsimp only at he
        rcases hcl with _ | cl
        · cases he
          exact absurd hc (by decide)
        · rcases cl with _ | size
          · cases he
            exact absurd hc (by decide)
          · dsimp only at he
            by_cases hsz : size = 0 ∨ (MAX_MEDIA_BYTES : ℚ) < size
            · rw [if_pos hsz] at he
              cases he
              exact absurd hc (by decide)
            · rw [if_neg hsz] at he
              cases he
      · constructor
        · cases hdb : jsStrTruthy p.data
          · rfl
          · exact absurd hdb hd
        · cases hub : jsStrTruthy p.url
          · rfl
          · exact absurd hub hu
  · rintro ⟨hd, hu⟩
    refine ⟨⟨some "INVALID_PAYLOAD", "Either data or url is required", false⟩, ?_, rfl⟩
    unfold prepareMedia
    rw [if_neg (by simp [hd]), if_neg (by simp [hu])]

/-- C8: the code evaluated at the failing input.  A url-only call with the
filename omitted yields filename 'image.jpg' — the JS default parameter — and
not the URL basename 'photo.png'; the basename derivation is reachable only
when the caller explicitly passes a falsy filename such as "". -/
theorem C8_url_filename_not_derived :
    prepareMedia ⟨some (some 3), [1, 2, 3], some "image/png"⟩
      ⟨none, some "http://example.com/photo.png", none, none, true⟩ =
      .ok ⟨"image/png", [1, 2, 3], "image.jpg", true⟩ ∧
    prepareMedia ⟨some (some 3), [1, 2, 3], some "image/png"⟩
      ⟨none, some "http://example.com/photo.png", some "", none, true⟩ =
      .ok ⟨"image/png", [1, 2, 3], "photo.png", true⟩ ∧
    "image.jpg" ≠ "photo.png" :=
  ⟨rfl, rfl, by decide⟩

theorem enqueueBlocking_processing (s : AgentState ℕ) (job : ℕ)
    (hp : s.processing = true) (hlen : s.queue.length < defaultConfig.queueLimit) :
    enqueueBlocking defaultConfig s job = .ok { s with queue := s.queue ++ [job] } := by
  unfold enqueueBlocking enqueuePush
  rw [if_neg (Nat.not_le.mpr hlen)]
  dsimp only
  rw [if_pos hp]

theorem blockedAfter_closed :
    ∀ k : ℕ, k ≤ 500 →
      blockedAfter defaultConfig (k + 1) = .ok ⟨99, 0, List.range' 1 k, true⟩ := by
  intro k
  induction k with
  | zero =>
    intro _
    have h1 : blockedAfter defaultConfig 1 =
        enqueueBlocking defaultConfig (freshAgentState defaultConfig 0 ℕ) 0 := rfl
    rw [h1]
    norm_num [enqueueBlocking, enqueuePush, processWorkStep, freshAgentState, defaultConfig,
      List.range']
  | succ k ih =>
    intro hk
    have hk' : k ≤ 500 := Nat.le_of_succ_le hk
    have hstep : blockedAfter defaultConfig (k + 1 + 1) =
        (blockedAfter defaultConfig (k + 1)).bind
          fun s => enqueueBlocking defaultConfig s (k + 1) := rfl
    rw [hstep, ih hk']
    show enqueueBlocking defaultConfig ⟨99, 0, List.range' 1 k, true⟩ (k + 1) =
      .ok ⟨99, 0, List.range' 1 (k + 1), true⟩
    have hlen : (List.range' 1 k).length < defaultConfig.queueLimit := by
      simp [List.length_range', defaultConfig]
      omega
    rw [enqueueBlocking_processing ⟨99, 0, List.range' 1 k, true⟩ (k + 1) rfl hlen]
    have h15 : 1 + 1 * k = k + 1 := by omega
    have hr : List.range' 1 (k + 1) = List.range' 1 k ++ [k + 1] := by
      rw [List.range'_concat, h15]
    rw [hr]

/-- C5: enqueue fails with RATE_LIMITED exactly when the agent's queue already
holds at least 500 entries, and otherwise appends the job; with 500 pending
tasks whose inner work never resolves (one in flight, 499 queued), one more
enqueue is accepted and the next one rejects with RATE_LIMITED. -/
theorem C5_queue_limit :
    (∀ (s : AgentState ℕ) (job : ℕ),
      (enqueuePush defaultConfig s job = .error .rateLimited ↔ 500 ≤ s.queue.length) ∧
      (s.queue.length < 500 →
        enqueuePush defaultConfig s job = .ok { s with queue := s.queue ++ [job] })) ∧
    (∃ s500 : AgentState ℕ,
      blockedAfter defaultConfig 500 = .ok s500 ∧ s500.queue.length = 499 ∧
      ∃ s501 : AgentState ℕ,
        enqueueBlocking defaultConfig s500 500 = .ok s501 ∧ s501.queue.length = 500 ∧
        enqueueBlocking defaultConfig s501 501 = .error .rateLimited) := by
  constructor
  · intro s job
    constructor
    · constructor
      · intro h
        by_cases hl : (500 : ℕ) ≤ s.queue.length
        · exact hl
        · exfalso
          unfold enqueuePush at h
          simp only [defaultConfig] at h
          rw [if_neg hl] at h
          cases h
      · intro hl
        unfold enqueuePush
        simp only [defaultConfig]
        rw [if_pos hl]
    · intro hl
      unfold enqueuePush
      simp only [defaultConfig]
      rw [if_neg (Nat.not_le.mpr hl)]
  · refine ⟨⟨99, 0, List.range' 1 499, true⟩, blockedAfter_closed 499 (by omega), ?_,
      ⟨99, 0, List.range' 1 500, true⟩, ?_, ?_, ?_⟩
    · simp [List.length_range']
    · have hlen : (List.range' 1 499).length < defaultConfig.queueLimit := by
        simp [List.length_range', defaultConfig]
      rw [enqueueBlocking_processing ⟨99, 0, List.range' 1 499, true⟩ 500 rfl hlen]
      have hr : List.range' 1 500 = List.range' 1 499 ++ [500] := by
        rw [List.range'_concat]
      rw [hr]
    · simp [List.length_range']
    · unfold enqueueBlocking enqueuePush
      rw [if_pos (by simp [List.length_range', defaultConfig])]

/-- Witness for `C5_queue_limit`: a short queue accepts and appends. -/
theorem C5_queue_limit_witness :
    enqueuePush defaultConfig (⟨100, 0, [], false⟩ : AgentState ℕ) 7 =
      .ok ⟨100, 0, [7], false⟩ := by
  have h := (C5_queue_limit.1 ⟨100, 0, [], false⟩ 7).2 (by simp)
  simpa using h

/-- C10: 0 ≤ tokens ≤ burst is an invariant of every rate-limiter operation:
a fresh agent state starts with tokens = burst; refill adds
elapsed × tokens_per_minute clamped to burst; the process loop spends one
token only when tokens ≥ 1, and otherwise leaves them unchanged. -/
theorem C10_token_bucket_invariant :
    (∀ now : ℚ, (freshAgentState defaultConfig now ℕ).tokens = defaultConfig.burst ∧
      TokenInv defaultConfig (freshAgentState defaultConfig now ℕ)) ∧
    (∀ (s : AgentState ℕ) (now : ℚ), TokenInv defaultConfig s →
      TokenInv defaultConfig (refillTokens defaultConfig now s) ∧
      (1 ≤ (now - s.lastRefill) / 60000 * defaultConfig.tokensPerMinute →
        (refillTokens defaultConfig now s).tokens =
          min defaultConfig.burst
            (s.tokens + (now - s.lastRefill) / 60000 * defaultConfig.tokensPerMinute))) ∧
    (∀ s : AgentState ℕ, TokenInv defaultConfig s →
      (∀ s2, processWorkStep s = .stop s2 → s2.tokens = s.tokens ∧ TokenInv defaultConfig s2) ∧
      (∀ job s2, processWorkStep s = .run job s2 →
        1 ≤ s.tokens ∧ s2.tokens = s.tokens - 1 ∧ TokenInv defaultConfig s2)) := by
  refine ⟨?_, ?_, ?_⟩
  · intro now
    exact ⟨rfl, by norm_num [TokenInv, freshAgentState, defaultConfig]⟩
  · intro s now hInv
    obtain ⟨h0, hb⟩ := hInv
    constructor
    · unfold refillTokens
      by_cases hr : (1 : ℚ) ≤ (now - s.lastRefill) / 60000 * defaultConfig.tokensPerMinute
      · rw [if_pos hr]
        refine ⟨?_, ?_⟩
        · show (0 : ℚ) ≤ min defaultConfig.burst
            (s.tokens + (now - s.lastRefill) / 60000 * defaultConfig.tokensPerMinute)
          refine le_min (by norm_num [defaultConfig]) (by linarith)
        · show min defaultConfig.burst
            (s.tokens + (now - s.lastRefill) / 60000 * defaultConfig.tokensPerMinute) ≤
              defaultConfig.burst
          exact min_le_left _ _
      · rw [if_neg hr]
        exact ⟨h0, hb⟩
    · intro hr
      unfold refillTokens
      rw [if_pos hr]
  · intro s hInv
    obtain ⟨h0, hb⟩ := hInv
    constructor
    · intro s2 h
      unfold processWorkStep at h
      split at h
      · cases h
        exact ⟨rfl, h0, hb⟩
      · split at h
        · cases h
          exact ⟨rfl, h0, hb⟩
        · cases h
    · intro job s2 h
      unfold processWorkStep at h
      split at h
      · cases h
      · split at h
        · cases h
        · rename_i ht
          cases h
          have h1 : (1 : ℚ) ≤ s.tokens := not_lt.mp ht
          refine ⟨h1, rfl, ?_, ?_⟩
          · show (0 : ℚ) ≤ s.tokens - 1
            linarith
          · show s.tokens - 1 ≤ defaultConfig.burst
            linarith

/-- Witness for `C10_token_bucket_invariant`: refilling a half-empty bucket
after a full minute clamps back to the burst of 100. -/
theorem C10_token_bucket_invariant_witness :
    TokenInv defaultConfig (refillTokens defaultConfig 60000 (⟨50, 0, [], false⟩ : AgentState ℕ)) ∧
    (refillTokens defaultConfig 60000 (⟨50, 0, [], false⟩ : AgentState ℕ)).tokens = 100 := by
  have h := C10_token_bucket_invariant.2.1 (⟨50, 0, [], false⟩ : AgentState ℕ) 60000
    (by norm_num [TokenInv, defaultConfig])
  refine ⟨h.1, ?_⟩
  have h2 := h.2 (by norm_num [defaultConfig])
  rw [h2]
  norm_num [defaultConfig, min_def]

theorem mem_setWaiter {ws : List WaiterObj} {i : ℕ} {f : WaiterObj → WaiterObj} {w2 : WaiterObj}
    (h : w2 ∈ setWaiter ws i f) : w2 ∈ ws ∨ ∃ w, ws.get? i = some w ∧ w2 = f w := by
  induction ws generalizing i with
  | nil => simp [setWaiter] at h
  | cons w ws ih =>
    cases i with
    | zero =>
      simp only [setWaiter] at h
      rcases List.mem_cons.mp h with h | h
      · exact Or.inr ⟨w, rfl, h⟩
      · exact Or.inl (List.mem_cons_of_mem _ h)
    | succ i =>
      simp only [setWaiter] at h
      rcases List.mem_cons.mp h with h | h
      · exact Or.inl (by simp [h])
      · rcases ih h with h2 | ⟨w3, hg, hw⟩
        · exact Or.inl (List.mem_cons_of_mem _ h2)
        · refine Or.inr ⟨w3, ?_, hw⟩
          simpa using hg

theorem get?_setWaiter_self (ws : List WaiterObj) (i : ℕ) (f : WaiterObj → WaiterObj) :
    (setWaiter ws i f).get? i = (ws.get? i).map f := by
  induction ws generalizing i with
  | nil => simp [setWaiter]
  | cons w ws ih =>
    cases i with
    | zero => simp [setWaiter]
    | succ i => simpa [setWaiter] using ih i

theorem qrInv_step (s : QrState) (e : QrSysEvent) (h : QrInv s) : QrInv (qrStep s e) := by
  obtain ⟨hok, hmap⟩ := h
  cases e with
  | ensureClient =>
    unfold qrStep
    dsimp only
    split
    · exact ⟨hok, hmap⟩
    · exact ⟨hok, hmap⟩
  | waitForQrCall =>
    unfold qrStep
    dsimp only
    split
    · exact ⟨hok, hmap⟩
    · split
      · exact ⟨hok, hmap⟩
      · split
        · exact ⟨hok, hmap⟩
        · constructor
          · intro w hw
            rcases List.mem_append.mp hw with hw | hw
            · exact hok w hw
            · rcases List.mem_singleton.mp hw with rfl
              exact ⟨by simp, fun _ => ⟨rfl, rfl⟩⟩
          · intro i hi
            cases hi
            refine ⟨⟨true, false, none⟩, ?_, rfl⟩
            exact List.get?_concat_length _ _
  | qrEvent =>
    unfold qrStep
    dsimp only
    split
    · rename_i i hm
      constructor
      · intro w2 hw2
        rcases mem_setWaiter hw2 with hw2 | ⟨w, hg, rfl⟩
        · exact hok w2 hw2
        · obtain ⟨w3, hg3, ht3⟩ := hmap i hm
          rw [hg] at hg3
          cases hg3
          obtain ⟨hres, hrej⟩ := (hok w (List.get?_mem hg)).2 ht3
          exact ⟨by simp [hrej], by simp⟩
      · intro i2 hi2
        cases hi2
    · exact ⟨hok, hmap⟩
  | timeoutFire i =>
    unfold qrStep
    dsimp only
    split
    · rename_i w hg
      split
      · rename_i ht
        constructor
        · intro w2 hw2
          rcases mem_setWaiter hw2 with hw2 | ⟨w3, hg3, rfl⟩
          · exact hok w2 hw2
          · rw [hg] at hg3
            cases hg3
            obtain ⟨hres, hrej⟩ := (hok w (List.get?_mem hg)).2 ht
            exact ⟨by simp [hres], by simp⟩
        · intro i2 hi2
          cases hi2
      · exact ⟨hok, hmap⟩
    · exact ⟨hok, hmap⟩
  | teardown =>
    unfold qrStep
    dsimp only
    constructor
    · exact hok
    · intro i hi
      cases hi

theorem qrInv_run (evs : List QrSysEvent) : QrInv (qrRun evs) := by
  suffices h : ∀ (l : List QrSysEvent) (s : QrState), QrInv s → QrInv (l.foldl qrStep s) by
    refine h evs qrInit ⟨?_, ?_⟩
    · intro w hw
      simp [qrInit] at hw
    · intro i hi
      simp [qrInit] at hi
  intro l
  induction l with
  | nil => intro s hs; exact hs
  | cons e rest ih => intro s hs; exact ih (qrStep s e) (qrInv_step s e hs)

/-- C3 counterexample: a teardown issued while a QR waiter is pending removes
the session and the `readyPromises` entry but leaves the waiter pending —
`resolved = false` and `rejectedCode = none` — with its timeout still armed;
the claimed rejection of the waiter by teardown itself does not happen. -/
theorem C3_counterexample :
    qrRun [.ensureClient, .waitForQrCall, .teardown] =
      ⟨false, false, [⟨true, false, none⟩], none⟩ := by decide

/-- C3 (amended): teardown removes the live session and discards the pending
waiter from the map without resolving or rejecting it; the discarded waiter's
timeout remains armed, and when that timeout later fires it rejects the waiter
with SESSION_NOT_READY; in every reachable state each waiter has been resolved
or rejected at most once, never both. -/
theorem C3_teardown_waiter :
    (∀ s : QrState, qrStep s .teardown =
      { s with sessionLive := false, sessionQr := false, mapEntry := none }) ∧
    (∀ (s : QrState) (i : ℕ) (w : WaiterObj),
      s.waiters.get? i = some w → w.timerActive = true →
      (qrStep s (.timeoutFire i)).waiters.get? i =
        some { w with timerActive := false, rejectedCode := some "SESSION_NOT_READY" }) ∧
    (∀ (evs : List QrSysEvent), ∀ w ∈ (qrRun evs).waiters,
      ¬(w.resolved = true ∧ w.rejectedCode.isSome = true)) := by
  refine ⟨fun s => rfl, ?_, ?_⟩
  · intro s i w hg ht
    unfold qrStep
    dsimp only
    rw [hg]
    dsimp only
    rw [if_pos ht]
    dsimp only
    rw [get?_setWaiter_self, hg]
    rfl
  · intro evs w hw
    exact ((qrInv_run evs).1 w hw).1

/-- Witness for `C3_teardown_waiter` at concrete states: a teardown with one
pending waiter, that waiter's later timeout, and the exactly-once property of
the waiter left by the counterexample run. -/
theorem C3_teardown_waiter_witness :
    qrStep ⟨true, false, [⟨true, false, none⟩], some 0⟩ .teardown =
      ⟨false, false, [⟨true, false, none⟩], none⟩ ∧
    (qrStep ⟨false, false, [⟨true, false, none⟩], none⟩ (.timeoutFire 0)).waiters.get? 0 =
      some ⟨false, false, some "SESSION_NOT_READY"⟩ ∧
    ¬((⟨true, false, none⟩ : WaiterObj).resolved = true ∧
      (⟨true, false, none⟩ : WaiterObj).rejectedCode.isSome = true) :=
  ⟨C3_teardown_waiter.1 _,
   C3_teardown_waiter.2.1 _ 0 ⟨true, false, none⟩ rfl rfl,
   C3_teardown_waiter.2.2 [.ensureClient, .waitForQrCall, .teardown] ⟨true, false, none⟩
     (by decide)⟩

end WhatsappApi
